import Mathlib

/-!
# Verification of the Prodigy advisory-pipeline core

Shallow embedding, in Lean 4, of the control-flow core of the Prodigy
multi-agent advisory pipeline (`src/core/orchestrator.py`,
`src/core/chief_of_staff.py`, `src/core/base_agent.py`,
`src/agents/*_vp.py`), together with theorems settling the behavioural
claims about score aggregation, decision thresholds, the Devil's Advocate
trigger, conflict detection, the bounded clarification-query loop,
re-analysis, VP-name normalization, retry/fatal-error behaviour and the
totality of the clarification function.

Numbers are modelled as rationals (Python floats, used here only at
coarse thresholds); the external LLM collaborator is modelled by oracle
functions supplied as arguments; dictionaries keyed by the five VP names
become functions out of a five-element type.
-/

namespace Prodigy

/-! ## Rounding: Python `round(x, 2)` (round-half-to-even at 2 decimals) -/

/-- Floor of a rational, in a form the kernel evaluates
(`Rat.floor_def` proves it equal to Mathlib's `⌊⌋`). -/
def ratFloor (q : ℚ) : ℤ := q.num / (q.den : ℤ)

theorem ratFloor_eq (q : ℚ) : ratFloor q = ⌊q⌋ := Rat.floor_def.symm

/-- Python's `round(x, 2)`: round to 2 decimal places, ties to even
(banker's rounding), modelled over ℚ. -/
def pyRound2 (q : ℚ) : ℚ :=
  let s : ℚ := q * 100
  let f : ℤ := ratFloor s
  let r : ℚ := s - (f : ℚ)
  let n : ℤ :=
    if r < 1/2 then f
    else if r > 1/2 then f + 1
    else if f % 2 = 0 then f else f + 1
  (n : ℚ) / 100

theorem pyRound2_le (q b : ℚ) (hq : q ≤ b) (hb : ∃ z : ℤ, (z : ℚ) = b * 100) :
    pyRound2 q ≤ b := by
  obtain ⟨z, hz⟩ := hb
  unfold pyRound2
  simp only [ratFloor_eq]
  rw [div_le_iff (by norm_num : (0:ℚ) < 100)]
  rw [← hz]
  have hfloor : ⌊q * 100⌋ ≤ z := by
    have hle : q * 100 ≤ ((z : ℚ)) := by
      rw [hz]
      have := mul_le_mul_of_nonneg_right hq (by norm_num : (0:ℚ) ≤ 100)
      simpa using this
    have := Int.floor_le_floor hle
    simpa using this
  by_cases h1 : q * 100 - (⌊q * 100⌋ : ℚ) < 1/2
  · simp only [h1, if_true]
    exact_mod_cast hfloor
  · -- the value rounds up to at most ⌊q*100⌋ + 1, and if ⌊q*100⌋ = z then
    -- the fractional part is below 1/2, contradiction with h1 unless ⌊⌋ < z
    have hfrac : (0:ℚ) ≤ q * 100 - (⌊q * 100⌋ : ℚ) := by
      have := Int.floor_le (q * 100)
      linarith
    have hlt : ⌊q * 100⌋ < z ∨ ⌊q * 100⌋ = z := lt_or_eq_of_le hfloor
    rcases hlt with hlt | heq
    · have hsucc : ⌊q * 100⌋ + 1 ≤ z := hlt
      simp only [h1, if_false]
      by_cases h2 : q * 100 - (⌊q * 100⌋ : ℚ) > 1/2
      · simp only [h2, if_true]
        exact_mod_cast hsucc
      · by_cases h3 : ⌊q * 100⌋ % 2 = 0
        · simp only [h2, if_false, h3, if_true]
          exact_mod_cast hfloor
        · simp only [h2, if_false, h3, if_false]
          exact_mod_cast hsucc
    · -- ⌊q*100⌋ = z means q*100 ≤ z = ⌊q*100⌋ so the fractional part is 0
      have hle : q * 100 ≤ (z : ℚ) := by
        rw [hz]
        have := mul_le_mul_of_nonneg_right hq (by norm_num : (0:ℚ) ≤ 100)
        simpa using this
      have : q * 100 - (⌊q * 100⌋ : ℚ) ≤ 0 := by rw [heq]; linarith
      have hzero : q * 100 - (⌊q * 100⌋ : ℚ) = 0 := le_antisymm this hfrac
      exact absurd (by rw [hzero]; norm_num) h1

theorem pyRound2_ge (q b : ℚ) (hq : b ≤ q) (hb : ∃ z : ℤ, (z : ℚ) = b * 100) :
    b ≤ pyRound2 q := by
  obtain ⟨z, hz⟩ := hb
  unfold pyRound2
  simp only [ratFloor_eq]
  rw [le_div_iff (by norm_num : (0:ℚ) < 100)]
  rw [← hz]
  have hfloor : z ≤ ⌊q * 100⌋ := by
    apply Int.le_floor.mpr
    rw [hz]
    have := mul_le_mul_of_nonneg_right hq (by norm_num : (0:ℚ) ≤ 100)
    simpa using this
  have hstep : ∀ m : ℤ, ⌊q * 100⌋ ≤ m → (z : ℚ) ≤ (m : ℚ) := by
    intro m hm
    exact_mod_cast le_trans hfloor hm
  by_cases h1 : q * 100 - (⌊q * 100⌋ : ℚ) < 1/2
  · simp only [h1, if_true]; exact hstep _ le_rfl
  · simp only [h1, if_false]
    by_cases h2 : q * 100 - (⌊q * 100⌋ : ℚ) > 1/2
    · simp only [h2, if_true]; exact hstep _ (by omega)
    · by_cases h3 : ⌊q * 100⌋ % 2 = 0
      · simp only [h2, if_false, h3, if_true]; exact hstep _ le_rfl
      · simp only [h2, if_false, h3, if_false]; exact hstep _ (by omega)

/-! ## Score aggregation and the overall decision
(`src/core/orchestrator.py`, `Orchestrator.run`) -/

/-- `Orchestrator.run` lines 115-118: first-round aggregation,
`round((market + tech + revenue + ops + product) / 5.0, 2)`. -/
def aggregateScore (market tech revenue ops product : ℚ) : ℚ :=
  pyRound2 ((market + tech + revenue + ops + product) / 5)

/-- `Orchestrator.run` lines 212-221: aggregation recomputed after
re-analysis, `round(sum([...5 summary scores...]) / 5.0, 2)`. -/
def reAggregateScore (market tech revenue ops product : ℚ) : ℚ :=
  pyRound2 ((market + tech + revenue + ops + product) / 5)

/-- `Orchestrator.run` lines 125-132: fixed-threshold decision mapping. -/
def overallDecision (overallScore : ℚ) : String :=
  if overallScore ≥ 8 then
    "Proceed with MVP (strong across all dimensions)"
  else if overallScore ≥ 6 then
    "Proceed with focused execution (solid opportunity with manageable risks)"
  else if overallScore ≥ 4 then
    "Proceed with caution (significant challenges, consider pivots)"
  else
    "Do not proceed in current form (major risks across multiple dimensions)"

/-- Rank of a decision tier, for stating monotonicity: 3 = strong proceed,
2 = focused execution, 1 = caution, 0 = do not proceed. -/
def decisionRank (overallScore : ℚ) : ℕ :=
  if overallScore ≥ 8 then 3
  else if overallScore ≥ 6 then 2
  else if overallScore ≥ 4 then 1
  else 0

theorem decisionRank_mono (s t : ℚ) (h : s ≤ t) : decisionRank s ≤ decisionRank t := by
  unfold decisionRank
  split_ifs <;> first | omega | (exfalso; linarith)

theorem overallDecision_eq_of_rank_eq (s t : ℚ)
    (h : decisionRank s = decisionRank t) : overallDecision s = overallDecision t := by
  unfold decisionRank at h
  unfold overallDecision
  split_ifs at h ⊢ <;> first | rfl | omega | (exfalso; linarith)

/-! ## String primitives

Python string operations (`lower`, `strip`, `replace`, `in`) modelled over
`List Char` so that they evaluate by kernel reduction. ASCII is all the
source ever feeds them. -/

/-- Python `str.lower()` (ASCII). -/
def lowerStr (s : String) : String := String.mk (s.data.map Char.toLower)

/-- Python `str.strip()`: drop whitespace from both ends. -/
def trimChars (l : List Char) : List Char :=
  ((l.dropWhile Char.isWhitespace).reverse.dropWhile Char.isWhitespace).reverse

/-- Python `str.strip()` on strings. -/
def trimStr (s : String) : String := String.mk (trimChars s.data)

/-- One fuel-indexed pass of Python `str.replace`: replace each
non-overlapping occurrence of `needle` left to right. The fuel is always
instantiated with the length of the scanned list, which suffices because
every step consumes at least one character. -/
def replaceCharsFuel (needle repl : List Char) : Nat → List Char → List Char
  | 0, l => l
  | _ + 1, [] => []
  | fuel + 1, c :: rest =>
    if needle ≠ [] ∧ needle.isPrefixOf (c :: rest) then
      repl ++ replaceCharsFuel needle repl fuel (rest.drop (needle.length - 1))
    else
      c :: replaceCharsFuel needle repl fuel rest

/-- Python `str.replace` over `List Char` (for a non-empty needle, the only
case the source uses). -/
def replaceChars (needle repl l : List Char) : List Char :=
  replaceCharsFuel needle repl l.length l

/-- Python `s.replace(needle, repl)`. -/
def replaceStr (s needle repl : String) : String :=
  String.mk (replaceChars needle.data repl.data s.data)

/-- Does `needle` occur as a contiguous sublist? -/
def subChars (needle : List Char) : List Char → Bool
  | [] => needle.isEmpty
  | c :: rest => needle.isPrefixOf (c :: rest) || subChars needle rest

/-- Python `needle in hay` on strings. -/
def containsStr (hay needle : String) : Bool := subChars needle.data hay.data

/-! ## VP keys and name normalization
(`src/core/orchestrator.py`, `Orchestrator._normalize_vp_name`) -/

/-- The five canonical specialist keys (`market`, `tech`, `revenue`, `ops`,
`product`). -/
inductive VP
  | market
  | tech
  | revenue
  | ops
  | product
deriving DecidableEq, Repr

/-- The iteration order `["market", "tech", "revenue", "ops", "product"]`
used everywhere in the source. -/
def vpOrder : List VP := [.market, .tech, .revenue, .ops, .product]

/-- Canonical key string of a specialist. -/
def vpKey : VP → String
  | .market => "market"
  | .tech => "tech"
  | .revenue => "revenue"
  | .ops => "ops"
  | .product => "product"

/-- The `vp_map` dictionary lookups of `_create_query_vp_function` and
`_re_analyze_vps`: a raw string resolves to an agent exactly when it is one
of the five canonical keys. -/
def strToVp (s : String) : Option VP :=
  if s = "market" then some .market
  else if s = "tech" then some .tech
  else if s = "revenue" then some .revenue
  else if s = "ops" then some .ops
  else if s = "product" then some .product
  else none

/-- The `vp_name_mapping` dictionary of `_normalize_vp_name` (lines
368-379). -/
def vpNameMapping : List (String × String) :=
  [("market", "market"),
   ("tech", "tech"),
   ("technology", "tech"),
   ("revenue", "revenue"),
   ("ops", "ops"),
   ("operations", "ops"),
   ("product", "product"),
   ("product & ux", "product"),
   ("product and ux", "product"),
   ("ux", "product")]

/-- Python `dict.get` over an association list with distinct keys. -/
def dictGet (l : List (String × String)) (k : String) : Option String :=
  (l.find? (fun p => p.1 = k)).map (fun p => p.2)

/-- `Orchestrator._normalize_vp_name` (lines 344-381): lowercase and strip,
remove `" vp"` then `"vp"` substrings, strip again, look the result up in
`vp_name_mapping`; `none` when unrecognized. -/
def normalizeVpName (vpName : String) : Option String :=
  let s1 := trimStr (lowerStr vpName)
  let s2 := trimStr (replaceStr (replaceStr s1 " vp" "") "vp" "")
  dictGet vpNameMapping s2

/-- A normalized name resolved to a `VP` value; `_re_analyze_vps` composes
`_normalize_vp_name` with the `vp_map` lookup. -/
def normalizeVp (vpName : String) : Option VP :=
  (normalizeVpName vpName).bind strToVp

/-! ## Reports and summaries
(`src/agents/*_vp.py`, each agent's `summarize`) -/

/-- A SpecialistResult: the fields of an agent report that the core control
flow reads — `score` (guaranteed present, defaulted to 0.0), the free-text
`summary`, and the risk list (`risks` for Market, `top_risks` for the
others). Specialist-specific `details` sub-trees feed only prompt text and
are omitted. -/
structure Report where
  score : ℚ
  summary : String
  risks : List String
deriving DecidableEq, Repr

/-- Per-specialist decision rubric of `summarize` — five distinct string
quadruples, all on the same ≥8 / ≥6 / ≥4 / else thresholds. -/
def vpDecision (vp : VP) (score : ℚ) : String :=
  match vp with
  | .market =>
    if score ≥ 8 then "Strong bootstrap opportunity - Clear path to profitability"
    else if score ≥ 6 then "Viable with hustle - Bootstrappable but requires execution"
    else if score ≥ 4 then "Challenging - Requires pivots or additional resources"
    else "Not bootstrappable - Consider alternative approaches"
  | .tech =>
    if score ≥ 8 then "Ship this fast - MVP achievable in timeline"
    else if score ≥ 6 then "Shippable with focus - Ruthless scope cuts needed"
    else if score ≥ 4 then "Challenging but possible - Significant scope reduction required"
    else "Difficult to ship quickly - Consider simpler MVP or longer timeline"
  | .revenue =>
    if score ≥ 8 then "Strong bootstrap revenue model - Clear path to profitability"
    else if score ≥ 6 then "Solid monetization potential - Requires validation and execution"
    else if score ≥ 4 then "Challenging revenue model - Significant validation needed"
    else "Weak monetization path - Rethink pricing or business model"
  | .ops =>
    if score ≥ 8 then "Operationally simple - Solo founder can sustain long-term"
    else if score ≥ 6 then "Manageable operations - Some burden but sustainable"
    else if score ≥ 4 then "Challenging operations - May need help or significant automation"
    else "Operationally complex - Difficult to run solo"
  | .product =>
    if score ≥ 8 then "Strong product-market fit potential - Users will love this"
    else if score ≥ 6 then "Good validation readiness - Solid UX foundation"
    else if score ≥ 4 then "Needs UX improvements - Functional but risky"
    else "UX concerns - May struggle with adoption"

/-- What `query_vp` hands back to the Synthesizer: the queried VP's
response, or (for an unknown name or a raised exception) a mapping holding
an `"error"` key. -/
inductive QueryResponse
  | response (r : Report)
  | errorEntry (msg : String)
deriving DecidableEq, Repr

/-- A SpecialistSummary: the normalized projection each agent's
`summarize` builds — `{vp}_score` (the report score verbatim),
`{vp}_decision`, `{vp}_summary`, the top-3 risks — plus the
`clarification` slot the Query Broker may append later. -/
structure Summary where
  score : ℚ
  decision : String
  text : String
  topRisks : List String
  clarification : Option QueryResponse := none
deriving DecidableEq, Repr

/-- `summarize` of the given specialist: score copied verbatim, decision by
the per-VP rubric, summary text, risks truncated to the top 3,
no clarification. -/
def summarize (vp : VP) (r : Report) : Summary :=
  { score := r.score
    decision := vpDecision vp r.score
    text := r.summary
    topRisks := r.risks.take 3
    clarification := none }

/-! ## Conflict detection
(`src/core/chief_of_staff.py`, `ChiefOfStaff._detect_conflicts`) -/

/-- A detected disagreement. The source builds description strings; the
constructors carry the same data (which rule fired, and for the spread rule
the max/min specialists and their scores). -/
inductive ConflictSignal
  | cliVsUi
  | scoreSpread (maxVp minVp : VP) (maxScore minScore : ℚ)
deriving DecidableEq, Repr

/-- Lines 311-315: the Tech-vs-Product keyword rule — `"cli"` in the
lowercased tech summary and `"web"` or `"ui"` in the lowercased product
summary. -/
def cliSignal (dims : VP → Summary) : Option ConflictSignal :=
  let techText := lowerStr (dims .tech).text
  let productText := lowerStr (dims .product).text
  if containsStr techText "cli" &&
      (containsStr productText "web" || containsStr productText "ui") then
    some .cliVsUi
  else
    none

/-- Lines 318-324: the per-key score list, keeping only truthy scores
(`if score:` drops a score of 0). -/
def nonZeroScores (dims : VP → Summary) : List (VP × ℚ) :=
  vpOrder.filterMap (fun k => if (dims k).score ≠ 0 then some (k, (dims k).score) else none)

/-- One comparison step of Python `max(l, key=...)`: a later element
replaces the current one only when strictly larger. -/
def pyMaxStep (acc : Option (VP × ℚ)) (x : VP × ℚ) : Option (VP × ℚ) :=
  match acc with
  | none => some x
  | some a => if x.2 > a.2 then some x else some a

/-- Python `max(l, key=...)`: first element with the largest key survives
the scan. -/
def pyMaxBy (l : List (VP × ℚ)) : Option (VP × ℚ) :=
  l.foldl pyMaxStep none

/-- One comparison step of Python `min(l, key=...)`. -/
def pyMinStep (acc : Option (VP × ℚ)) (x : VP × ℚ) : Option (VP × ℚ) :=
  match acc with
  | none => some x
  | some a => if x.2 < a.2 then some x else some a

/-- Python `min(l, key=...)`: first element with the smallest key survives
the scan. -/
def pyMinBy (l : List (VP × ℚ)) : Option (VP × ℚ) :=
  l.foldl pyMinStep none

/-- Lines 326-330: when any truthy score exists, compare max and min and
emit the spread signal if `max_score - min_score > 3.0`. -/
def spreadSignal (dims : VP → Summary) : Option ConflictSignal :=
  match pyMaxBy (nonZeroScores dims), pyMinBy (nonZeroScores dims) with
  | some mx, some mn =>
    if mx.2 - mn.2 > 3 then some (.scoreSpread mx.1 mn.1 mx.2 mn.2) else none
  | _, _ => none

/-- `ChiefOfStaff._detect_conflicts` (lines 301-332): the `conflicts` list,
CLI rule first, then the score-spread rule; the empty list is the
`""`-return (no conflict). -/
def detectConflicts (dims : VP → Summary) : List ConflictSignal :=
  (cliSignal dims).toList ++ (spreadSignal dims).toList

/-! ## The query-decision loop
(`src/core/chief_of_staff.py`, `ChiefOfStaff._ask_for_query` and
`ChiefOfStaff.synthesize`) -/

/-- The payload the query-decision LLM call returns (parsed JSON):
`should_query`, and optionally `vp_name`, `question`, `reason`. -/
structure QueryDecision where
  shouldQuery : Bool
  vpName : Option String := none
  question : Option String := none
  reason : String := ""
deriving DecidableEq, Repr

/-- Python truthiness of `.get(...)` on an optional string: `None` and the
empty string are falsy. -/
def truthyOptStr : Option String → Bool
  | none => false
  | some s => s ≠ ""

/-- The Synthesizer's output as the Coordinator reads it: only
`overall_verdict` is inspected (for the Devil's Advocate trigger); `body`
stands for the rest of the payload. -/
structure SynthResult where
  verdict : String
  body : String := ""
deriving DecidableEq, Repr

/-- The Challenger's parsed payload, as read by `Orchestrator.run`:
`requires_re_analysis`, `vps_to_rerun`, `guidance`; `body` stands for the
unread fields. -/
structure ChallengeResult where
  requiresReAnalysis : Bool
  vpsToRerun : List String := []
  guidance : String := ""
  body : String := ""
deriving DecidableEq, Repr

/-- `dimensions[vp_name]["clarification"] = clarification` guarded by
`if vp_name in dimensions` (`ChiefOfStaff.synthesize` lines 427-428). -/
def setClarification (dims : VP → Summary) (vpName : String) (c : QueryResponse) :
    VP → Summary :=
  match strToVp vpName with
  | some v => fun k => if k = v then { dims v with clarification := some c } else dims k
  | none => dims

/-- Accumulated observable state of one `ChiefOfStaff.synthesize` turn:
current synthesis, the (mutated) summaries, and how many clarification
queries, external decision calls and synthesis calls happened. -/
structure SynthOutcome where
  synthesis : SynthResult
  dims : VP → Summary
  queriesMade : Nat
  decisionCalls : Nat
  synthCalls : Nat

/-- The query loop of `ChiefOfStaff.synthesize` (lines 402-437), fuel =
`max_queries - queries_made`. Each iteration runs `_ask_for_query`
(which short-circuits to `should_query=False` with no external call when
`_detect_conflicts` finds nothing, lines 349-353), breaks on a falsy
`should_query` or falsy `vp_name`/`question`, otherwise executes the
query, appends the clarification and re-synthesizes. `decisionO` and
`synthO` are the external-call oracles, indexed by how many calls of that
kind were made before. -/
def synthLoop (decisionO : Nat → QueryDecision)
    (queryFn : String → String → QueryResponse)
    (synthO : Nat → SynthResult) : Nat → SynthOutcome → SynthOutcome
  | 0, st => st
  | fuel + 1, st =>
    if detectConflicts st.dims = [] then
      st
    else
      let d := decisionO st.decisionCalls
      let st := { st with decisionCalls := st.decisionCalls + 1 }
      if ¬ d.shouldQuery then
        st
      else if ¬ (truthyOptStr d.vpName ∧ truthyOptStr d.question) then
        st
      else
        let vpName := d.vpName.getD ""
        let question := d.question.getD ""
        let clar := queryFn vpName question
        let dims := setClarification st.dims vpName clar
        let synth := synthO st.synthCalls
        synthLoop decisionO queryFn synthO fuel
          { synthesis := synth
            dims := dims
            queriesMade := st.queriesMade + 1
            decisionCalls := st.decisionCalls
            synthCalls := st.synthCalls + 1 }

/-- `ChiefOfStaff.synthesize` (lines 373-439): one first-pass synthesis
call, then, only when a `query_vp_fn` is supplied, the bounded query loop
with `max_queries = 2`. -/
def synthesize (synthO : Nat → SynthResult) (decisionO : Nat → QueryDecision)
    (queryFn : Option (String → String → QueryResponse))
    (dims : VP → Summary) : SynthOutcome :=
  let st0 : SynthOutcome :=
    { synthesis := synthO 0
      dims := dims
      queriesMade := 0
      decisionCalls := 0
      synthCalls := 1 }
  match queryFn with
  | none => st0
  | some qf => synthLoop decisionO qf synthO 2 st0

/-! ## Orchestrator
(`src/core/orchestrator.py`, `Orchestrator`) -/

/-- Mode of one specialist `analyze` invocation, distinguished in the
source by the context mapping (`None` / `is_clarification` /
`is_re_analysis`). -/
inductive CallMode
  | initial
  | clarification (question : String)
  | reAnalysis (guidance : String)
deriving DecidableEq, Repr

/-- The external collaborator, as the Coordinator observes it: for each
specialist invocation, either a parsed report or a raised error
(exhausted retries). `synthA`/`decision` serve the first
`ChiefOfStaff.synthesize` turn, `synthB` the post-re-analysis turn, and
`challenge` the Devil's Advocate call. -/
structure Oracles where
  analyze : VP → CallMode → Except String Report
  synthA : Nat → SynthResult
  decision : Nat → QueryDecision
  challenge : ChallengeResult
  synthB : Nat → SynthResult

/-- `Orchestrator.run` line 121-122: `max(scores) - min(scores)` over the
five summary scores, in list order. -/
def scoreVariance (market tech revenue ops product : ℚ) : ℚ :=
  max market (max tech (max revenue (max ops product))) -
    min market (min tech (min revenue (min ops product)))

/-- The fixed uncertainty-keyword list of
`Orchestrator._should_run_devils_advocate` (line 339). -/
def uncertaintyKeywords : List String :=
  ["uncertain", "unclear", "validation needed", "needs testing"]

/-- `Orchestrator._should_run_devils_advocate` (lines 307-342): overall
score below 7.5, or score spread above 3.0, or an uncertainty keyword in
the lowercased synthesis verdict. -/
def shouldRunDevilsAdvocate (overallScore variance : ℚ) (cosVerdict : String) : Bool :=
  if overallScore < 7.5 then true
  else if variance > 3 then true
  else uncertaintyKeywords.any (fun w => containsStr (lowerStr cosVerdict) w)

/-- The `query_vp` closure built by
`Orchestrator._create_query_vp_function` (lines 268-305): unknown names
yield an `"error"` mapping, a raised exception from the queried
specialist is caught and yields an `"error"` mapping, otherwise the
specialist's clarification-mode response is returned verbatim. -/
def queryVp (analyze : VP → CallMode → Except String Report)
    (vpName question : String) : QueryResponse :=
  match strToVp vpName with
  | none => .errorEntry ("Unknown VP: " ++ vpName)
  | some v =>
    match analyze v (.clarification question) with
    | .ok r => .response r
    | .error e => .errorEntry ("Failed to query " ++ vpName ++ ": " ++ e)

/-- One iteration of the `for vp_name_raw in vps_to_rerun` loop of
`Orchestrator._re_analyze_vps`: skip a name that does not normalize,
re-run the specialist in re-analysis mode, catch a raised exception (the
report is then not replaced), otherwise record the replacement under the
normalized key (overwriting an earlier entry for the same key). -/
def reAnalyzeStep (analyze : VP → CallMode → Except String Report)
    (guidance : String) (acc : VP → Option Report) (raw : String) :
    VP → Option Report :=
  match normalizeVp raw with
  | none => acc
  | some v =>
    match analyze v (.reAnalysis guidance) with
    | .ok r => fun k => if k = v then some r else acc k
    | .error _ => acc

/-- `Orchestrator._re_analyze_vps` (lines 383-439) as the partial map of
replaced reports (`updated_reports`): the raw names folded through
`reAnalyzeStep` in order. -/
def reAnalyzeVps (analyze : VP → CallMode → Except String Report)
    (vpsToRerun : List String) (guidance : String) : VP → Option Report :=
  vpsToRerun.foldl (reAnalyzeStep analyze guidance) (fun _ => none)

/-- The final composite result of `Orchestrator.run` (lines 236-251),
restricted to the observables the claims are about. -/
structure RunResult where
  reports : VP → Report
  summaries : VP → Summary
  overallScore : ℚ
  overallDecisionLabel : String
  chiefOfStaff : SynthResult
  devilsAdvocate : Option ChallengeResult

/-- Lines 205-221: apply `updated_reports` over the current reports and
re-summarize exactly the replaced specialists. -/
def applyReAnalysis (updated : VP → Option Report)
    (reports : VP → Report) (summaries : VP → Summary) :
    (VP → Report) × (VP → Summary) :=
  (fun v => (updated v).getD (reports v),
   fun v =>
     match updated v with
     | some r => summarize v r
     | none => summaries v)

/-- The `all_reports` mapping after the five staged calls (lines 135-141),
keyed by specialist. -/
def initialReports (rm rp rt rr ro : Report) : VP → Report := fun v =>
  match v with
  | .market => rm
  | .tech => rt
  | .revenue => rr
  | .ops => ro
  | .product => rp

/-- `Orchestrator.run` after the five primary `analyze` calls succeeded
(everything from line 109 on): aggregate and decide, run the Synthesizer
turn with the `query_vp` tool, conditionally run the Devil's Advocate,
conditionally re-analyze, re-aggregate (the decision label is not
recomputed) and re-synthesize without the query tool. -/
def runRest (o : Oracles) (rm rp rt rr ro : Report) : RunResult :=
  let reports : VP → Report := initialReports rm rp rt rr ro
  let summaries : VP → Summary := fun v => summarize v (reports v)
  let overallScore :=
    aggregateScore (summaries .market).score (summaries .tech).score
      (summaries .revenue).score (summaries .ops).score (summaries .product).score
  let variance :=
    scoreVariance (summaries .market).score (summaries .tech).score
      (summaries .revenue).score (summaries .ops).score (summaries .product).score
  let decisionLabel := overallDecision overallScore
  let synthOut := synthesize o.synthA o.decision (some (queryVp o.analyze)) summaries
  let cos := synthOut.synthesis
  let summaries := synthOut.dims
  if shouldRunDevilsAdvocate overallScore variance cos.verdict then
    let da := o.challenge
    if da.requiresReAnalysis then
      let updated := reAnalyzeVps o.analyze da.vpsToRerun da.guidance
      let (reports2, summaries2) := applyReAnalysis updated reports summaries
      let overallScore2 :=
        reAggregateScore (summaries2 .market).score (summaries2 .tech).score
          (summaries2 .revenue).score (summaries2 .ops).score (summaries2 .product).score
      let cos2 := (synthesize o.synthB o.decision none summaries2).synthesis
      { reports := reports2
        summaries := summaries2
        overallScore := overallScore2
        overallDecisionLabel := decisionLabel
        chiefOfStaff := cos2
        devilsAdvocate := some da }
    else
      { reports := reports
        summaries := summaries
        overallScore := overallScore
        overallDecisionLabel := decisionLabel
        chiefOfStaff := cos
        devilsAdvocate := some da }
  else
    { reports := reports
      summaries := summaries
      overallScore := overallScore
      overallDecisionLabel := decisionLabel
      chiefOfStaff := cos
      devilsAdvocate := none }

/-- `Orchestrator.run` (lines 46-251): the five staged specialist calls in
source order — Market, Product, Tech, Revenue, Ops — each propagating a
raised error, then the pure remainder. -/
def runModel (o : Oracles) : Except String RunResult :=
  (o.analyze .market .initial).bind fun rm =>
    (o.analyze .product .initial).bind fun rp =>
      (o.analyze .tech .initial).bind fun rt =>
        (o.analyze .revenue .initial).bind fun rr =>
          (o.analyze .ops .initial).bind fun ro =>
            .ok (runRest o rm rp rt rr ro)

/-! ## Retry logic
(`src/core/base_agent.py`, `BaseAgent._call_llm`) -/

/-- Outcome of one collaborator attempt inside `_call_llm`: a parsed JSON
payload, a `json.JSONDecodeError` (unparseable output), or any other
exception from the API call. -/
inductive LlmAttempt
  | parsed (r : Report)
  | parseError (msg : String)
  | apiError (msg : String)
deriving DecidableEq, Repr

/-- The `for attempt in range(max_retries)` loop of `_call_llm` (lines
125-170): `rem` attempts remain, `attempt` is the current index. A parsed
payload returns immediately; a failure on the last attempt (`attempt ==
max_retries - 1`) raises `RuntimeError`; otherwise the failure is logged
and the loop continues. Also returns how many attempts were consumed.
The fall-through raise after the loop is the `rem = 0` base case. -/
def callLlmLoop (oracle : Nat → LlmAttempt) (maxRetries : Nat) :
    Nat → Nat → Except String Report × Nat
  | _, 0 =>
    (.error ("Failed to get valid response after " ++ toString maxRetries ++ " attempts"), 0)
  | attempt, rem + 1 =>
    match oracle attempt with
    | .parsed r => (.ok r, 1)
    | .parseError m =>
      if rem = 0 then
        (.error ("Failed to parse JSON response after " ++ toString maxRetries ++
          " attempts: " ++ m), 1)
      else
        let (res, n) := callLlmLoop oracle maxRetries (attempt + 1) rem
        (res, n + 1)
    | .apiError m =>
      if rem = 0 then
        (.error ("LLM API call failed after " ++ toString maxRetries ++
          " attempts: " ++ m), 1)
      else
        let (res, n) := callLlmLoop oracle maxRetries (attempt + 1) rem
        (res, n + 1)

/-- `BaseAgent._call_llm` with its attempt counter: result and number of
collaborator attempts made (`max_retries` defaults to 3). -/
def callLlm (oracle : Nat → LlmAttempt) (maxRetries : Nat := 3) :
    Except String Report × Nat :=
  callLlmLoop oracle maxRetries 0 maxRetries

/-! ## Claims -/

/-- C1: when each of the five specialist summary scores lies in [0,10],
the Coordinator's overall score is exactly the unweighted arithmetic mean
of the five, rounded to 2 decimals, and itself lies in [0,10]; the
aggregate recomputed after a re-analysis round is computed by the very
same formula, so the same holds for it. -/
theorem aggregate_mean_rounded_and_bounded
    (m t r o p : ℚ)
    (hm0 : 0 ≤ m) (hm1 : m ≤ 10) (ht0 : 0 ≤ t) (ht1 : t ≤ 10)
    (hr0 : 0 ≤ r) (hr1 : r ≤ 10) (ho0 : 0 ≤ o) (ho1 : o ≤ 10)
    (hp0 : 0 ≤ p) (hp1 : p ≤ 10) :
    aggregateScore m t r o p = pyRound2 ((m + t + r + o + p) / 5) ∧
    0 ≤ aggregateScore m t r o p ∧ aggregateScore m t r o p ≤ 10 ∧
    reAggregateScore m t r o p = aggregateScore m t r o p := by
  refine ⟨rfl, ?_, ?_, rfl⟩
  · exact pyRound2_ge _ 0 (by linarith) ⟨0, by norm_num⟩
  · exact pyRound2_le _ 10 (by linarith) ⟨1000, by norm_num⟩

/-- Witness for C1 at the Scenario-A scores 9, 8, 8.5, 9, 8 (mean 8.5). -/
theorem aggregate_mean_rounded_and_bounded_witness :
    aggregateScore 9 8 (17/2) 9 8 = pyRound2 ((9 + 8 + 17/2 + 9 + 8) / 5) ∧
    0 ≤ aggregateScore 9 8 (17/2) 9 8 ∧ aggregateScore 9 8 (17/2) 9 8 ≤ 10 ∧
    reAggregateScore 9 8 (17/2) 9 8 = aggregateScore 9 8 (17/2) 9 8 :=
  aggregate_mean_rounded_and_bounded 9 8 (17/2) 9 8
    (by norm_num) (by norm_num) (by norm_num) (by norm_num) (by norm_num)
    (by norm_num) (by norm_num) (by norm_num) (by norm_num) (by norm_num)

/-- C7: `"Tech VP"`, `"tech"` and `"Technology"` all normalize to `tech`;
the synonyms `"operations"` and `"Product & UX VP"` normalize to `ops`
and `product`; the unrecognized `"Sales"` normalizes to `none`, and a
re-analysis round given only `"Sales"` replaces nothing and raises
nothing. -/
theorem normalize_vp_names :
    normalizeVpName "Tech VP" = some "tech" ∧
    normalizeVpName "tech" = some "tech" ∧
    normalizeVpName "Technology" = some "tech" ∧
    normalizeVpName "operations" = some "ops" ∧
    normalizeVpName "Product & UX VP" = some "product" ∧
    normalizeVpName "Sales" = none ∧
    ∀ (analyze : VP → CallMode → Except String Report) (g : String) (v : VP),
      reAnalyzeVps analyze ["Sales"] g v = none := by
  refine ⟨by decide, by decide, by decide, by decide, by decide, by decide, ?_⟩
  intro analyze g v
  have h : normalizeVp "Sales" = none := by decide
  simp [reAnalyzeVps, reAnalyzeStep, h]

/-- C8: against a collaborator whose every attempt yields unparseable
output, `_call_llm` makes exactly 3 attempts and then raises
(`RuntimeError`), rather than returning any default payload. -/
theorem retry_three_then_fatal (oracle : Nat → LlmAttempt)
    (h : ∀ i, ∃ m, oracle i = .parseError m) :
    (callLlm oracle).2 = 3 ∧ ∃ e, (callLlm oracle).1 = .error e := by
  obtain ⟨m0, h0⟩ := h 0
  obtain ⟨m1, h1⟩ := h 1
  obtain ⟨m2, h2⟩ := h 2
  unfold callLlm callLlmLoop
  rw [h0]
  simp only [callLlmLoop, h1, h2]
  exact ⟨rfl, _, rfl⟩

/-- Witness for C8: a stub collaborator that always returns garbage. -/
theorem retry_three_then_fatal_witness :
    (callLlm (fun _ => .parseError "garbage")).2 = 3 ∧
    ∃ e, (callLlm (fun _ => .parseError "garbage")).1 = .error e :=
  retry_three_then_fatal (fun _ => .parseError "garbage")
    (fun _ => ⟨"garbage", rfl⟩)

/-- C10: the clarification function handed to the Synthesizer is total:
an unrecognized VP name yields an `"error"` mapping, a raised exception
from the queried specialist is caught and yields an `"error"` mapping, and
otherwise the specialist's response is returned verbatim. -/
theorem query_vp_total (analyze : VP → CallMode → Except String Report)
    (vpName question : String) :
    (strToVp vpName = none →
      queryVp analyze vpName question = .errorEntry ("Unknown VP: " ++ vpName)) ∧
    (∀ v e, strToVp vpName = some v →
      analyze v (.clarification question) = .error e →
      queryVp analyze vpName question =
        .errorEntry ("Failed to query " ++ vpName ++ ": " ++ e)) ∧
    (∀ v r, strToVp vpName = some v →
      analyze v (.clarification question) = .ok r →
      queryVp analyze vpName question = .response r) := by
  refine ⟨fun h => ?_, fun v e hv he => ?_, fun v r hv hr => ?_⟩
  · simp [queryVp, h]
  · simp [queryVp, hv, he]
  · simp [queryVp, hv, hr]

/-- Witness for C10: the unknown name `"Sales"` produces the `"error"`
mapping (no exception), even over a specialist stub that always raises. -/
theorem query_vp_total_witness :
    queryVp (fun _ _ => .error "boom") "Sales" "what about churn?" =
      .errorEntry ("Unknown VP: " ++ "Sales") :=
  (query_vp_total (fun _ _ => .error "boom") "Sales" "what about churn?").1 (by decide)

/-- C3: the Devil's Advocate runs iff the overall score is below 7.5, or
the score spread exceeds 3.0, or the synthesis verdict contains an
uncertainty keyword — and in the pipeline, the final result carries a
Challenger output exactly when that trigger fires. -/
theorem challenger_trigger_iff (s v : ℚ) (verdict : String) :
    (shouldRunDevilsAdvocate s v verdict = true ↔
      (s < 7.5 ∨ v > 3 ∨ ∃ w ∈ uncertaintyKeywords,
        containsStr (lowerStr verdict) w = true)) ∧
    ∀ (o : Oracles) (rm rp rt rr ro : Report),
      (runRest o rm rp rt rr ro).devilsAdvocate.isSome =
        shouldRunDevilsAdvocate
          (aggregateScore rm.score rt.score rr.score ro.score rp.score)
          (scoreVariance rm.score rt.score rr.score ro.score rp.score)
          (synthesize o.synthA o.decision (some (queryVp o.analyze))
            (fun w => summarize w (initialReports rm rp rt rr ro w))).synthesis.verdict := by
  constructor
  · unfold shouldRunDevilsAdvocate
    split_ifs with h1 h2
    · simp [h1]
    · simp [h2]
    · simp [h1, h2, List.any_eq_true]
  · intro o rm rp rt rr ro
    have hs : ∀ (w : VP) (r : Report), (summarize w r).score = r.score := fun _ _ => rfl
    have h1 : initialReports rm rp rt rr ro VP.market = rm := rfl
    have h2 : initialReports rm rp rt rr ro VP.tech = rt := rfl
    have h3 : initialReports rm rp rt rr ro VP.revenue = rr := rfl
    have h4 : initialReports rm rp rt rr ro VP.ops = ro := rfl
    have h5 : initialReports rm rp rt rr ro VP.product = rp := rfl
    simp only [runRest, hs, h1, h2, h3, h4, h5]
    cases hb :
        shouldRunDevilsAdvocate
          (aggregateScore rm.score rt.score rr.score ro.score rp.score)
          (scoreVariance rm.score rt.score rr.score ro.score rp.score)
          (synthesize o.synthA o.decision (some (queryVp o.analyze))
            (fun w => summarize w (initialReports rm rp rt rr ro w))).synthesis.verdict with
    | false => simp [hb]
    | true =>
      cases hr : o.challenge.requiresReAnalysis <;> simp [hb, hr]

/-- Witness for C3, Scenario-B style: overall 6.6 and spread 6.0 — the
spread condition alone fires the trigger. -/
theorem challenger_trigger_iff_witness :
    shouldRunDevilsAdvocate (33/5) 6 "solid plan" = true :=
  (challenger_trigger_iff (33/5) 6 "solid plan").1.mpr (Or.inr (Or.inl (by norm_num)))

/-- A report with the given score and empty text fields. -/
def plainReport (s : ℚ) : Report := { score := s, summary := "", risks := [] }

/-- Oracles for the re-analysis counterexamples: every initial and
clarification call scores 7, every re-analysis call scores 0, the
Challenger demands a re-run of `tech`, and the Synthesizer/decision
oracles are inert. -/
def reRunToZeroOracles : Oracles :=
  { analyze := fun _ mode =>
      match mode with
      | .reAnalysis _ => .ok (plainReport 0)
      | _ => .ok (plainReport 7)
    synthA := fun _ => { verdict := "" }
    decision := fun _ => { shouldQuery := false }
    challenge := { requiresReAnalysis := true, vpsToRerun := ["tech"], guidance := "redo" }
    synthB := fun _ => { verdict := "" } }

/-- C2 fails on the code: with all five initial scores 7 (overall 7.0,
label "proceed with focused execution") and a re-analysis that drops
`tech` to 0, the final overall score is 5.6 but the final decision label
is still the one computed from 7.0, not the ≥4-tier label that 5.6 maps
to. -/
theorem decision_label_stale_after_reanalysis :
    (runModel reRunToZeroOracles).toOption.map
        (fun res => (res.overallScore, res.overallDecisionLabel)) =
      some (28/5, overallDecision 7) ∧
    overallDecision 7 ≠ overallDecision (28/5) := by
  constructor
  · with_unfolding_all decide
  · with_unfolding_all decide

/-- C2 (amended): the final decision label equals the fixed-threshold
mapping of the *pre-re-analysis* overall score (the label is computed
once, before any re-analysis, and never recomputed), and the mapping is
non-decreasing in the score across the {4,6,8} thresholds. -/
theorem decision_label_from_initial_score (o : Oracles) (rm rp rt rr ro : Report)
    (res : RunResult) (h : runModel o = .ok res)
    (hm : o.analyze .market .initial = .ok rm)
    (hp : o.analyze .product .initial = .ok rp)
    (ht : o.analyze .tech .initial = .ok rt)
    (hr : o.analyze .revenue .initial = .ok rr)
    (ho : o.analyze .ops .initial = .ok ro) :
    res.overallDecisionLabel =
      overallDecision (aggregateScore rm.score rt.score rr.score ro.score rp.score) ∧
    ∀ s t : ℚ, s ≤ t → decisionRank s ≤ decisionRank t := by
  refine ⟨?_, decisionRank_mono⟩
  have hres : res = runRest o rm rp rt rr ro := by
    simp only [runModel, hm, hp, ht, hr, ho, Except.bind] at h
    exact (Except.ok.inj h).symm
  subst hres
  have hs : ∀ (w : VP) (r : Report), (summarize w r).score = r.score := fun _ _ => rfl
  have h1 : initialReports rm rp rt rr ro VP.market = rm := rfl
  have h2 : initialReports rm rp rt rr ro VP.tech = rt := rfl
  have h3 : initialReports rm rp rt rr ro VP.revenue = rr := rfl
  have h4 : initialReports rm rp rt rr ro VP.ops = ro := rfl
  have h5 : initialReports rm rp rt rr ro VP.product = rp := rfl
  simp only [runRest, hs, h1, h2, h3, h4, h5]
  split <;> (try split) <;> rfl

/-- Oracles for the C9 counterexample: every re-analysis-mode call raises,
everything else behaves as in `reRunToZeroOracles`. -/
def reAnalysisBoomOracles : Oracles :=
  { analyze := fun _ mode =>
      match mode with
      | .reAnalysis _ => .error "boom"
      | _ => .ok (plainReport 7)
    synthA := fun _ => { verdict := "" }
    decision := fun _ => { shouldQuery := false }
    challenge := { requiresReAnalysis := true, vpsToRerun := ["tech"], guidance := "redo" }
    synthB := fun _ => { verdict := "" } }

/-- C9 fails as stated: a re-analysis-mode invocation whose retries are
exhausted does *not* abort the run — the exception is caught, the old
`tech` report is kept, and the run completes; likewise a
clarification-mode failure is caught and surfaced as an `"error"`
mapping. -/
theorem reanalysis_failure_absorbed :
    (runModel reAnalysisBoomOracles).toOption.map
        (fun res => (res.reports VP.tech, res.devilsAdvocate.isSome)) =
      some (plainReport 7, true) ∧
    queryVp (fun _ _ => .error "boom") "tech" "why?" =
      .errorEntry ("Failed to query " ++ "tech" ++ ": " ++ "boom") := by
  constructor
  · with_unfolding_all decide
  · with_unfolding_all decide

/-- C9 (amended): an exhausted-retries failure in any of the five primary
specialist invocations aborts the whole run (the run returns a result only
when all five succeeded, and succeeds whenever they do, whatever the
clarification- and re-analysis-mode calls do). -/
theorem primary_failure_aborts_run (oc : Oracles) :
    (∀ res, runModel oc = .ok res → ∀ v, ∃ r, oc.analyze v .initial = .ok r) ∧
    ((∀ v, ∃ r, oc.analyze v .initial = .ok r) → ∃ res, runModel oc = .ok res) := by
  constructor
  · intro res h v
    cases hm : oc.analyze .market .initial with
    | error e => simp [runModel, hm, Except.bind] at h
    | ok rm =>
      cases hp : oc.analyze .product .initial with
      | error e => simp [runModel, hm, hp, Except.bind] at h
      | ok rp =>
        cases ht : oc.analyze .tech .initial with
        | error e => simp [runModel, hm, hp, ht, Except.bind] at h
        | ok rt =>
          cases hr : oc.analyze .revenue .initial with
          | error e => simp [runModel, hm, hp, ht, hr, Except.bind] at h
          | ok rr =>
            cases ho : oc.analyze .ops .initial with
            | error e => simp [runModel, hm, hp, ht, hr, ho, Except.bind] at h
            | ok ro =>
              cases v
              · exact ⟨rm, hm⟩
              · exact ⟨rt, ht⟩
              · exact ⟨rr, hr⟩
              · exact ⟨ro, ho⟩
              · exact ⟨rp, hp⟩
  · intro h
    obtain ⟨rm, hm⟩ := h .market
    obtain ⟨rp, hp⟩ := h .product
    obtain ⟨rt, ht⟩ := h .tech
    obtain ⟨rr, hr⟩ := h .revenue
    obtain ⟨ro, ho⟩ := h .ops
    exact ⟨runRest oc rm rp rt rr ro,
      by simp [runModel, hm, hp, ht, hr, ho, Except.bind]⟩

/-- Witness for C9 (amended): with every initial call succeeding but every
re-analysis call raising, the run still returns a result. -/
theorem primary_failure_aborts_run_witness :
    ∃ res, runModel reAnalysisBoomOracles = .ok res :=
  (primary_failure_aborts_run reAnalysisBoomOracles).2
    (fun v => ⟨plainReport 7, by cases v <;> rfl⟩)

/-- `reAnalyzeStep` leaves slots of specialists the raw name does not
normalize to untouched. -/
theorem reAnalyzeStep_preserves (analyze : VP → CallMode → Except String Report)
    (guidance raw : String) (acc : VP → Option Report) (v : VP)
    (h : normalizeVp raw ≠ some v) :
    reAnalyzeStep analyze guidance acc raw v = acc v := by
  unfold reAnalyzeStep
  cases hn : normalizeVp raw with
  | none => rfl
  | some w =>
    have hwv : v ≠ w := fun hvw => h (hvw ▸ hn)
    cases ha : analyze w (.reAnalysis guidance) with
    | ok r => simp [ha, hwv]
    | error e => simp [ha]

/-- C6: across a re-analysis round, every specialist whose (normalized)
name is not in the Challenger's re-run list keeps its report and summary
unchanged. -/
theorem unnamed_vp_untouched (analyze : VP → CallMode → Except String Report)
    (names : List String) (guidance : String)
    (reports : VP → Report) (summaries : VP → Summary) (v : VP)
    (hnot : ∀ raw ∈ names, normalizeVp raw ≠ some v) :
    (applyReAnalysis (reAnalyzeVps analyze names guidance) reports summaries).1 v =
      reports v ∧
    (applyReAnalysis (reAnalyzeVps analyze names guidance) reports summaries).2 v =
      summaries v := by
  have key : reAnalyzeVps analyze names guidance v = none := by
    unfold reAnalyzeVps
    have hgen : ∀ (l : List String) (acc : VP → Option Report),
        (∀ raw ∈ l, normalizeVp raw ≠ some v) → acc v = none →
        (l.foldl (reAnalyzeStep analyze guidance) acc) v = none := by
      intro l
      induction l with
      | nil => intro acc _ hacc; simpa using hacc
      | cons raw rest ih =>
        intro acc hl hacc
        rw [List.foldl_cons]
        refine ih _ (fun x hx => hl x (List.mem_cons_of_mem _ hx)) ?_
        rw [reAnalyzeStep_preserves analyze guidance raw acc v
          (hl raw (List.mem_cons_self _ _))]
        exact hacc
    exact hgen names _ hnot rfl
  constructor
  · simp [applyReAnalysis, key]
  · simp [applyReAnalysis, key]

/-- Witness for C6: re-running only `"Tech VP"` leaves the market report
and summary untouched. -/
theorem unnamed_vp_untouched_witness :
    (applyReAnalysis
        (reAnalyzeVps reRunToZeroOracles.analyze ["Tech VP"] "redo")
        (fun _ => plainReport 7) (fun w => summarize w (plainReport 7))).1 VP.market =
      plainReport 7 ∧
    (applyReAnalysis
        (reAnalyzeVps reRunToZeroOracles.analyze ["Tech VP"] "redo")
        (fun _ => plainReport 7) (fun w => summarize w (plainReport 7))).2 VP.market =
      summarize VP.market (plainReport 7) :=
  unnamed_vp_untouched reRunToZeroOracles.analyze ["Tech VP"] "redo"
    (fun _ => plainReport 7) (fun w => summarize w (plainReport 7)) VP.market
    (by decide)

theorem pyMax_go : ∀ (l : List (VP × ℚ)) (a x : VP × ℚ),
    l.foldl pyMaxStep (some a) = some x →
    (x = a ∨ x ∈ l) ∧ a.2 ≤ x.2 ∧ ∀ y ∈ l, y.2 ≤ x.2 := by
  intro l
  induction l with
  | nil =>
    intro a x h
    obtain rfl : a = x := by simpa using h
    exact ⟨Or.inl rfl, le_rfl, by simp⟩
  | cons y rest ih =>
    intro a x h
    rw [List.foldl_cons] at h
    by_cases hy : y.2 > a.2
    · rw [show pyMaxStep (some a) y = some y from by simp [pyMaxStep, hy]] at h
      obtain ⟨hmem, hle, hall⟩ := ih y x h
      refine ⟨?_, le_trans (le_of_lt hy) hle, ?_⟩
      · rcases hmem with rfl | hm
        · exact Or.inr (List.mem_cons_self _ _)
        · exact Or.inr (List.mem_cons_of_mem _ hm)
      · intro z hz
        rcases List.mem_cons.mp hz with rfl | hz2
        · exact hle
        · exact hall z hz2
    · rw [show pyMaxStep (some a) y = some a from by simp [pyMaxStep, hy]] at h
      obtain ⟨hmem, hle, hall⟩ := ih a x h
      refine ⟨?_, hle, ?_⟩
      · rcases hmem with rfl | hm
        · exact Or.inl rfl
        · exact Or.inr (List.mem_cons_of_mem _ hm)
      · intro z hz
        rcases List.mem_cons.mp hz with rfl | hz2
        · exact le_trans (not_lt.mp hy) hle
        · exact hall z hz2

/-- `pyMaxBy` returns an element of the list whose key is maximal. -/
theorem pyMaxBy_spec (l : List (VP × ℚ)) (x : VP × ℚ) (h : pyMaxBy l = some x) :
    x ∈ l ∧ ∀ y ∈ l, y.2 ≤ x.2 := by
  cases l with
  | nil => simp [pyMaxBy] at h
  | cons y rest =>
    unfold pyMaxBy at h
    rw [List.foldl_cons, show pyMaxStep none y = some y from rfl] at h
    obtain ⟨hmem, hle, hall⟩ := pyMax_go rest y x h
    refine ⟨?_, ?_⟩
    · rcases hmem with rfl | hm
      · exact List.mem_cons_self _ _
      · exact List.mem_cons_of_mem _ hm
    · intro z hz
      rcases List.mem_cons.mp hz with rfl | hz2
      · exact hle
      · exact hall z hz2

theorem pyMin_go : ∀ (l : List (VP × ℚ)) (a x : VP × ℚ),
    l.foldl pyMinStep (some a) = some x →
    (x = a ∨ x ∈ l) ∧ x.2 ≤ a.2 ∧ ∀ y ∈ l, x.2 ≤ y.2 := by
  intro l
  induction l with
  | nil =>
    intro a x h
    obtain rfl : a = x := by simpa using h
    exact ⟨Or.inl rfl, le_rfl, by simp⟩
  | cons y rest ih =>
    intro a x h
    rw [List.foldl_cons] at h
    by_cases hy : y.2 < a.2
    · rw [show pyMinStep (some a) y = some y from by simp [pyMinStep, hy]] at h
      obtain ⟨hmem, hle, hall⟩ := ih y x h
      refine ⟨?_, le_trans hle (le_of_lt hy), ?_⟩
      · rcases hmem with rfl | hm
        · exact Or.inr (List.mem_cons_self _ _)
        · exact Or.inr (List.mem_cons_of_mem _ hm)
      · intro z hz
        rcases List.mem_cons.mp hz with rfl | hz2
        · exact hle
        · exact hall z hz2
    · rw [show pyMinStep (some a) y = some a from by simp [pyMinStep, hy]] at h
      obtain ⟨hmem, hle, hall⟩ := ih a x h
      refine ⟨?_, hle, ?_⟩
      · rcases hmem with rfl | hm
        · exact Or.inl rfl
        · exact Or.inr (List.mem_cons_of_mem _ hm)
      · intro z hz
        rcases List.mem_cons.mp hz with rfl | hz2
        · exact le_trans hle (not_lt.mp hy)
        · exact hall z hz2

/-- `pyMinBy` returns an element of the list whose key is minimal. -/
theorem pyMinBy_spec (l : List (VP × ℚ)) (x : VP × ℚ) (h : pyMinBy l = some x) :
    x ∈ l ∧ ∀ y ∈ l, x.2 ≤ y.2 := by
  cases l with
  | nil => simp [pyMinBy] at h
  | cons y rest =>
    unfold pyMinBy at h
    rw [List.foldl_cons, show pyMinStep none y = some y from rfl] at h
    obtain ⟨hmem, hle, hall⟩ := pyMin_go rest y x h
    refine ⟨?_, ?_⟩
    · rcases hmem with rfl | hm
      · exact List.mem_cons_self _ _
      · exact List.mem_cons_of_mem _ hm
    · intro z hz
      rcases List.mem_cons.mp hz with rfl | hz2
      · exact hle
      · exact hall z hz2

/-- Summaries scoring 0, 5, 5, 5, 5: the spread across all five summaries
is 5.0, but the score-0 summary is dropped by the truthiness filter. -/
def zeroAndFives : VP → Summary := fun v =>
  if v = .market then summarize .market (plainReport 0) else summarize v (plainReport 5)

/-- C4 fails on the code: with scores 0, 5, 5, 5, 5 the spread across all
five summaries is 5.0 > 3.0, yet `_detect_conflicts` emits nothing — the
score-0 summary is excluded from the max/min computation by the
`if score:` truthiness test. -/
theorem spread_rule_drops_zero_scores :
    detectConflicts zeroAndFives = [] ∧
    scoreVariance (zeroAndFives .market).score (zeroAndFives .tech).score
      (zeroAndFives .revenue).score (zeroAndFives .ops).score
      (zeroAndFives .product).score > 3 := by
  constructor
  · with_unfolding_all decide
  · with_unfolding_all decide

/-- C4 (amended): the score-spread rule computes max minus min over the
summaries with *truthy* (non-zero) scores only — a score-0 summary does
not participate — and emits a signal naming the first max-scoring and
first min-scoring specialists of that filtered list exactly when that
spread exceeds 3.0. -/
theorem spread_signal_over_nonzero_scores (dims : VP → Summary) :
    ((spreadSignal dims).isSome = true ↔
      ∃ mx mn, pyMaxBy (nonZeroScores dims) = some mx ∧
        pyMinBy (nonZeroScores dims) = some mn ∧ mx.2 - mn.2 > 3) ∧
    (∀ mxv mnv mxs mns,
      spreadSignal dims = some (.scoreSpread mxv mnv mxs mns) →
      (mxv, mxs) ∈ nonZeroScores dims ∧ (∀ y ∈ nonZeroScores dims, y.2 ≤ mxs) ∧
      (mnv, mns) ∈ nonZeroScores dims ∧ (∀ y ∈ nonZeroScores dims, mns ≤ y.2) ∧
      mxs - mns > 3) ∧
    detectConflicts dims = (cliSignal dims).toList ++ (spreadSignal dims).toList := by
  refine ⟨?_, ?_, rfl⟩
  · unfold spreadSignal
    cases hmx : pyMaxBy (nonZeroScores dims) with
    | none => simp
    | some mx =>
      cases hmn : pyMinBy (nonZeroScores dims) with
      | none => simp
      | some mn =>
        by_cases hgt : mx.2 - mn.2 > 3
        · simp only [hgt, if_true, Option.isSome_some, true_iff]
          exact ⟨mx, mn, rfl, rfl, hgt⟩
        · simp only [hgt, if_false, Option.isSome_none, Bool.false_eq_true, false_iff]
          rintro ⟨mx', mn', hmx', hmn', hgt'⟩
          obtain rfl : mx = mx' := Option.some.inj hmx'
          obtain rfl : mn = mn' := Option.some.inj hmn'
          exact hgt hgt'
  · intro mxv mnv mxs mns h
    unfold spreadSignal at h
    cases hmx : pyMaxBy (nonZeroScores dims) with
    | none => rw [hmx] at h; simp at h
    | some mx =>
      cases hmn : pyMinBy (nonZeroScores dims) with
      | none => rw [hmx, hmn] at h; simp at h
      | some mn =>
        rw [hmx, hmn] at h
        simp only [] at h
        by_cases hgt : mx.2 - mn.2 > 3
        · rw [if_pos hgt] at h
          simp only [Option.some.injEq, ConflictSignal.scoreSpread.injEq] at h
          obtain ⟨h1, h2, h3, h4⟩ := h
          subst h1; subst h2; subst h3; subst h4
          obtain ⟨hmxm, hmxall⟩ := pyMaxBy_spec _ _ hmx
          obtain ⟨hmnm, hmnall⟩ := pyMinBy_spec _ _ hmn
          exact ⟨hmxm, hmxall, hmnm, hmnall, hgt⟩
        · rw [if_neg hgt] at h
          simp at h

/-- Scenario-B summaries: scores 9, 3, 8, 7, 6 for market, tech, revenue,
ops, product. -/
def scenarioBDims : VP → Summary := fun v =>
  summarize v (plainReport
    (match v with
     | .market => 9
     | .tech => 3
     | .revenue => 8
     | .ops => 7
     | .product => 6))

/-- Witness for C4 (amended), Scenario-B style scores 9, 3, 8, 7, 6: the
spread signal fires and names Market (9) and Tech (3). -/
theorem spread_signal_over_nonzero_scores_witness :
    (spreadSignal scenarioBDims).isSome = true :=
  (spread_signal_over_nonzero_scores scenarioBDims).1.mpr
    ⟨(VP.market, 9), (VP.tech, 3), by with_unfolding_all decide,
      by with_unfolding_all decide, by norm_num⟩

/-- Appending a clarification changes no score and no summary text, so
`_detect_conflicts` sees the same conflicts before and after. -/
theorem detectConflicts_setClarification (dims : VP → Summary) (n : String)
    (c : QueryResponse) :
    detectConflicts (setClarification dims n c) = detectConflicts dims := by
  have hsc : ∀ v, (setClarification dims n c v).score = (dims v).score := by
    intro v
    unfold setClarification
    cases strToVp n with
    | none => rfl
    | some w => by_cases hv : v = w <;> simp [hv]
  have htx : ∀ v, (setClarification dims n c v).text = (dims v).text := by
    intro v
    unfold setClarification
    cases strToVp n with
    | none => rfl
    | some w => by_cases hv : v = w <;> simp [hv]
  unfold detectConflicts cliSignal spreadSignal nonZeroScores
  simp only [hsc, htx]

/-- The state the query loop carries into its next iteration after an
executed query. -/
def synthNext (d : Nat → QueryDecision) (q : String → String → QueryResponse)
    (s : Nat → SynthResult) (st : SynthOutcome) : SynthOutcome :=
  { synthesis := s st.synthCalls
    dims := setClarification st.dims ((d st.decisionCalls).vpName.getD "")
      (q ((d st.decisionCalls).vpName.getD "")
        ((d st.decisionCalls).question.getD ""))
    queriesMade := st.queriesMade + 1
    decisionCalls := st.decisionCalls + 1
    synthCalls := st.synthCalls + 1 }

theorem synthNext_queriesMade (d : Nat → QueryDecision)
    (q : String → String → QueryResponse) (s : Nat → SynthResult)
    (st : SynthOutcome) : (synthNext d q s st).queriesMade = st.queriesMade + 1 := rfl

theorem synthNext_decisionCalls (d : Nat → QueryDecision)
    (q : String → String → QueryResponse) (s : Nat → SynthResult)
    (st : SynthOutcome) : (synthNext d q s st).decisionCalls = st.decisionCalls + 1 := rfl

/-- One unfolding of the query loop. -/
theorem synthLoop_succ (d : Nat → QueryDecision) (q : String → String → QueryResponse)
    (s : Nat → SynthResult) (n : Nat) (st : SynthOutcome) :
    synthLoop d q s (n + 1) st =
      if detectConflicts st.dims = [] then st
      else if ¬ (d st.decisionCalls).shouldQuery then
        { st with decisionCalls := st.decisionCalls + 1 }
      else if ¬ (truthyOptStr (d st.decisionCalls).vpName ∧
          truthyOptStr (d st.decisionCalls).question) then
        { st with decisionCalls := st.decisionCalls + 1 }
      else
        synthLoop d q s n (synthNext d q s st) := rfl

/-- The query loop makes at most `fuel` further queries. -/
theorem synthLoop_queries_le (d : Nat → QueryDecision)
    (q : String → String → QueryResponse) (s : Nat → SynthResult) :
    ∀ (fuel : Nat) (st : SynthOutcome),
      (synthLoop d q s fuel st).queriesMade ≤ st.queriesMade + fuel := by
  intro fuel
  induction fuel with
  | zero => intro st; exact Nat.le_add_right _ _
  | succ n ih =>
    intro st
    rw [synthLoop_succ]
    by_cases h1 : detectConflicts st.dims = []
    · rw [if_pos h1]; exact Nat.le_add_right _ _
    · rw [if_neg h1]
      by_cases h2 : ¬ (d st.decisionCalls).shouldQuery
      · rw [if_pos h2]
        show st.queriesMade ≤ st.queriesMade + (n + 1)
        exact Nat.le_add_right _ _
      · rw [if_neg h2]
        by_cases h3 : ¬ (truthyOptStr (d st.decisionCalls).vpName ∧
            truthyOptStr (d st.decisionCalls).question)
        · rw [if_pos h3]
          show st.queriesMade ≤ st.queriesMade + (n + 1)
          exact Nat.le_add_right _ _
        · rw [if_neg h3]
          have h := ih (synthNext d q s st)
          rw [synthNext_queriesMade] at h
          omega

/-- Once some decision in the stream is a falsy `should_query`, the loop
can neither query past it nor keep making decision calls past it. -/
theorem synthLoop_stops_at_false (d : Nat → QueryDecision)
    (q : String → String → QueryResponse) (s : Nat → SynthResult) (i : Nat)
    (hi : (d i).shouldQuery = false) :
    ∀ (fuel : Nat) (st : SynthOutcome),
      st.decisionCalls = st.queriesMade → st.queriesMade ≤ i →
      (synthLoop d q s fuel st).queriesMade ≤ i ∧
      (synthLoop d q s fuel st).decisionCalls ≤ i + 1 := by
  intro fuel
  induction fuel with
  | zero =>
    intro st hinv hle
    refine ⟨hle, ?_⟩
    show st.decisionCalls ≤ i + 1
    omega
  | succ n ih =>
    intro st hinv hle
    rw [synthLoop_succ]
    by_cases h1 : detectConflicts st.dims = []
    · rw [if_pos h1]
      exact ⟨hle, by omega⟩
    · rw [if_neg h1]
      by_cases h2 : ¬ (d st.decisionCalls).shouldQuery
      · rw [if_pos h2]
        refine ⟨?_, ?_⟩
        · show st.queriesMade ≤ i
          exact hle
        · show st.decisionCalls + 1 ≤ i + 1
          omega
      · rw [if_neg h2]
        by_cases h3 : ¬ (truthyOptStr (d st.decisionCalls).vpName ∧
            truthyOptStr (d st.decisionCalls).question)
        · rw [if_pos h3]
          refine ⟨?_, ?_⟩
          · show st.queriesMade ≤ i
            exact hle
          · show st.decisionCalls + 1 ≤ i + 1
            omega
        · rw [if_neg h3]
          have hq : (d st.decisionCalls).shouldQuery = true := by
            by_contra hq'
            exact h2 (fun ht => hq' ht)
          have hne : st.queriesMade ≠ i := by
            intro he
            rw [hinv, he, hi] at hq
            cases hq
          exact ih (synthNext d q s st)
            (by rw [synthNext_queriesMade, synthNext_decisionCalls, hinv])
            (by rw [synthNext_queriesMade]; omega)

/-- C5: within one Synthesizer turn with a query function, at most 2
clarification queries are issued; when the Conflict Detector finds
nothing, zero queries and zero external decision calls are made; and the
loop never queries past the first falsy `should_query` decision (it exits
there). -/
theorem query_loop_bounded (synthO : Nat → SynthResult)
    (decisionO : Nat → QueryDecision) (qf : String → String → QueryResponse)
    (dims : VP → Summary) :
    (synthesize synthO decisionO (some qf) dims).queriesMade ≤ 2 ∧
    (detectConflicts dims = [] →
      (synthesize synthO decisionO (some qf) dims).queriesMade = 0 ∧
      (synthesize synthO decisionO (some qf) dims).decisionCalls = 0) ∧
    (∀ i, (decisionO i).shouldQuery = false →
      (synthesize synthO decisionO (some qf) dims).queriesMade ≤ i ∧
      (synthesize synthO decisionO (some qf) dims).decisionCalls ≤ i + 1) := by
  have hdef : synthesize synthO decisionO (some qf) dims =
      synthLoop decisionO qf synthO 2
        { synthesis := synthO 0
          dims := dims
          queriesMade := 0
          decisionCalls := 0
          synthCalls := 1 } := rfl
  refine ⟨?_, ?_, ?_⟩
  · rw [hdef]
    have h := synthLoop_queries_le decisionO qf synthO 2
      { synthesis := synthO 0
        dims := dims
        queriesMade := 0
        decisionCalls := 0
        synthCalls := 1 }
    dsimp only at h
    omega
  · intro hc
    rw [hdef, show (2 : Nat) = 1 + 1 from rfl, synthLoop_succ]
    rw [if_pos hc]
    exact ⟨rfl, rfl⟩
  · intro i hi
    rw [hdef]
    exact synthLoop_stops_at_false decisionO qf synthO i hi 2 _ rfl (Nat.zero_le i)

/-- Witness for C5: with no conflicts among the summaries of Scenario-A
style identical scores, the turn issues zero queries and zero decision
calls; with a first decision of `should_query=false`, it issues zero
queries. -/
theorem query_loop_bounded_witness :
    (synthesize (fun _ => { verdict := "" }) (fun _ => { shouldQuery := true })
        (some (fun _ _ => .errorEntry "stub"))
        (fun w => summarize w (plainReport 7))).queriesMade = 0 ∧
    (synthesize (fun _ => { verdict := "" }) (fun _ => { shouldQuery := true })
        (some (fun _ _ => .errorEntry "stub"))
        (fun w => summarize w (plainReport 7))).decisionCalls = 0 :=
  (query_loop_bounded (fun _ => { verdict := "" }) (fun _ => { shouldQuery := true })
      (fun _ _ => .errorEntry "stub") (fun w => summarize w (plainReport 7))).2.1
    (by with_unfolding_all decide)

/-- Oracles whose five initial calls all score 9 and whose Challenger
reports nothing to redo. -/
def benignOracles : Oracles :=
  { analyze := fun _ _ => .ok (plainReport 9)
    synthA := fun _ => { verdict := "" }
    decision := fun _ => { shouldQuery := false }
    challenge := { requiresReAnalysis := false }
    synthB := fun _ => { verdict := "" } }

/-- Witness for C2 (amended) on a run with all five scores 9. -/
theorem decision_label_from_initial_score_witness :
    (runRest benignOracles (plainReport 9) (plainReport 9) (plainReport 9)
        (plainReport 9) (plainReport 9)).overallDecisionLabel =
      overallDecision (aggregateScore (plainReport 9).score (plainReport 9).score
        (plainReport 9).score (plainReport 9).score (plainReport 9).score) :=
  (decision_label_from_initial_score benignOracles (plainReport 9) (plainReport 9)
    (plainReport 9) (plainReport 9) (plainReport 9)
    (runRest benignOracles (plainReport 9) (plainReport 9) (plainReport 9)
      (plainReport 9) (plainReport 9))
    rfl rfl rfl rfl rfl rfl).1

end Prodigy
